import Mathlib

/-!
Shallow embedding of the baccarat toolkit core (shoe, dealing rules,
Monte Carlo estimator, economics) and proofs of its specified properties.

Modelling conventions:
- Python dicts with insertion order become association lists
  (`List (Nat × Nat)` from rank to count), iterated in list order.
- Card counts are natural numbers (the code never drives a count
  negative: removal is guarded, draws pick only positive counts).
- The global pseudo-random stream of Python's random module becomes an
  explicit `RNG` state threaded through the functions; `seedRNG` models
  `random.seed`, `randint` models `random.randint` as a deterministic
  function of the state that always lands in the requested interval.
- Exceptions become `Except Err`, with `Err` distinguishing the
  `ValueError`s (caught by the estimator) from the `RuntimeError`
  of the fallback path.
- Python floats become rationals.
-/

/-- Error kinds raised by the core: ValueError (empty shoe, exhausted
rank) and RuntimeError (the fallback failure in draw_random). -/
inductive Err where
  | valueError (msg : String)
  | runtimeError (msg : String)
deriving Repr, DecidableEq

/-- CARD_VALUES: rank to baccarat point value, ranks 10..13 count 0. -/
def CARD_VALUES : List (Nat × Nat) :=
  [(1, 1), (2, 2), (3, 3), (4, 4), (5, 5), (6, 6), (7, 7), (8, 8), (9, 9),
   (10, 0), (11, 0), (12, 0), (13, 0)]

/-- RANK_LABEL: rank to display label. -/
def RANK_LABEL : List (Nat × String) :=
  [(1, "A"), (2, "2"), (3, "3"), (4, "4"), (5, "5"), (6, "6"), (7, "7"),
   (8, "8"), (9, "9"), (10, "10"), (11, "J"), (12, "Q"), (13, "K")]

/-- First value bound to a key in an association list, defaulting to 0;
models dict.get(rank, 0) and dict indexing on count tables. -/
def lookupCount : List (Nat × Nat) → Nat → Nat
  | [], _ => 0
  | (k, c) :: rest, rank => if k = rank then c else lookupCount rest rank

/-- Label of a rank, models RANK_LABEL[rank]. -/
def rankLabel (r : Nat) : String :=
  match RANK_LABEL.lookup r with
  | some l => l
  | none => ""

/-- Point value of a card rank, models CARD_VALUES[c]. -/
def cardValue (c : Nat) : Nat := lookupCount CARD_VALUES c

/-- Sum of all counts in a count table, models sum(counts.values()). -/
def sumCounts : List (Nat × Nat) → Nat
  | [] => 0
  | (_, c) :: rest => c + sumCounts rest

/-- Decrement the entry of a given rank by one (first occurrence),
models counts[rank] -= 1. -/
def decCount : List (Nat × Nat) → Nat → List (Nat × Nat)
  | [], _ => []
  | (k, c) :: rest, rank =>
      if k = rank then (k, c - 1) :: rest else (k, c) :: decCount rest rank

/-- Increment the entry of a given rank by one (first occurrence),
models counts[rank] += 1. -/
def incCount : List (Nat × Nat) → Nat → List (Nat × Nat)
  | [], _ => []
  | (k, c) :: rest, rank =>
      if k = rank then (k, c + 1) :: rest else (k, c) :: incCount rest rank

/-- The Shoe dataclass: deck count and per-rank remaining counts. -/
structure Shoe where
  decks : Nat
  counts : List (Nat × Nat)
deriving Repr, DecidableEq

/-- Well-formedness inherited from Python dicts: rank keys are unique. -/
def Shoe.WF (s : Shoe) : Prop := (s.counts.map Prod.fst).Nodup

/-- Default counts at construction: 4 * decks of each rank 1..13. -/
def initCounts (decks : Nat) : List (Nat × Nat) :=
  (List.range 13).map (fun i => (i + 1, 4 * decks))

/-- Shoe.remaining: total number of cards left. -/
def Shoe.remaining (s : Shoe) : Nat := sumCounts s.counts

/-- Shoe.remove: decrement a rank count, error if none left. -/
def Shoe.remove (s : Shoe) (rank : Nat) : Except Err Shoe :=
  if lookupCount s.counts rank = 0 then
    .error (.valueError (String.append (String.append ("No ") (rankLabel rank))
      (" left to draw.")))
  else
    .ok ⟨s.decks, decCount s.counts rank⟩

/-- Shoe.add_back: increment a rank count unconditionally. -/
def Shoe.add_back (s : Shoe) (rank : Nat) : Shoe :=
  ⟨s.decks, incCount s.counts rank⟩

/-- The cumulative-count walk of draw_random: skip empty ranks,
accumulate counts, return the first rank whose cumulative sum
reaches the drawn integer. -/
def drawWalk : List (Nat × Nat) → Nat → Nat → Option Nat
  | [], _, _ => none
  | (rank, cnt) :: rest, r, cum =>
      if cnt = 0 then drawWalk rest r cum
      else if r ≤ cum + cnt then some rank
      else drawWalk rest r (cum + cnt)

/-- The fallback scan of draw_random: first rank with a positive count. -/
def fallbackPick : List (Nat × Nat) → Option Nat
  | [] => none
  | (rank, cnt) :: rest => if cnt > 0 then some rank else fallbackPick rest

/-- Selection rule as the spec words it: walk the ranks accumulating
counts; the first rank whose cumulative sum reaches or exceeds the
drawn integer is selected. -/
def specSelect : List (Nat × Nat) → Nat → Nat → Option Nat
  | [], _, _ => none
  | (rank, cnt) :: rest, r, cum =>
      if r ≤ cum + cnt then some rank else specSelect rest r (cum + cnt)

/-- Global pseudo-random generator state (models the state of Python's
random module as an abstract deterministic stream). -/
structure RNG where
  state : Nat
deriving Repr, DecidableEq

/-- Models random.seed(seed): the state becomes a function of the seed
alone, discarding the previous stream position. -/
def seedRNG (seed : Nat) : RNG := ⟨seed % 2 ^ 64⟩

/-- One step of the modelled generator (a 64-bit linear congruential
step standing in for the Mersenne twister). -/
def RNG.next (g : RNG) : Nat × RNG :=
  let s := (g.state * 6364136223846793005 + 1442695040888963407) % 2 ^ 64
  (s / 2 ^ 33, ⟨s⟩)

/-- Models random.randint(lo, hi): a uniform draw in [lo, hi] as a
deterministic function of the stream state. -/
def randint (g : RNG) (lo hi : Nat) : Nat × RNG :=
  let (x, g1) := g.next
  (lo + x % (hi + 1 - lo), g1)

/-- Body of draw_random after the drawn integer r is fixed: the
cumulative walk, then the fallback scan, then the RuntimeError. -/
def drawWith (s : Shoe) (r : Nat) : Except Err (Nat × Shoe) :=
  match drawWalk s.counts r 0 with
  | some rank => .ok (rank, ⟨s.decks, decCount s.counts rank⟩)
  | none =>
    match fallbackPick s.counts with
    | some rank => .ok (rank, ⟨s.decks, decCount s.counts rank⟩)
    | none => .error (.runtimeError ("Failed to draw a card."))

/-- Shoe.draw_random: error on an empty shoe, otherwise draw a uniform
integer in [1, remaining()] and select by cumulative counts. -/
def Shoe.draw_random (s : Shoe) (g : RNG) : Except Err (Nat × Shoe × RNG) :=
  let total := s.remaining
  if total = 0 then .error (.valueError ("Shoe is empty."))
  else
    let (r, g1) := randint g 1 total
    match drawWith s r with
    | .ok (rank, s1) => .ok (rank, s1, g1)
    | .error e => .error e

/-- hand_total: sum of card point values modulo 10. -/
def hand_total (cards : List Nat) : Nat :=
  (cards.map cardValue).sum % 10

/-- player_draws_third: player draws iff the two-card total is at
most 5 (naturals handled outside). -/
def player_draws_third (player_cards : List Nat) : Bool :=
  decide (hand_total player_cards ≤ 5)

/-- banker_draw_rule: the banker third-card tableau, keyed by the
banker total and the player's third card value (none if the player
stood). -/
def banker_draw_rule (banker_cards : List Nat) (player_third : Option Nat) :
    Bool :=
  match player_third with
  | none => decide (hand_total banker_cards ≤ 5)
  | some v =>
    if hand_total banker_cards ≤ 2 then true
    else if hand_total banker_cards = 3 then decide (v ≠ 8)
    else if hand_total banker_cards = 4 then
      ([2, 3, 4, 5, 6, 7] : List Nat).contains v
    else if hand_total banker_cards = 5 then
      ([4, 5, 6, 7] : List Nat).contains v
    else if hand_total banker_cards = 6 then
      ([6, 7] : List Nat).contains v
    else false

/-- One dealt hand's result: the outcome tag and both card lists. -/
abbrev DealResult := String × List Nat × List Nat

/-- Outcome determination of deal_hand_from_shoe: higher total wins,
equal totals tie. -/
def dealOutcome (pc bc : List Nat) (s : Shoe) (g : RNG) :
    Except Err (DealResult × Shoe × RNG) :=
  if hand_total pc > hand_total bc then .ok (("Player", pc, bc), s, g)
  else if hand_total bc > hand_total pc then .ok (("Banker", pc, bc), s, g)
  else .ok (("Tie", pc, bc), s, g)

/-- Banker phase of deal_hand_from_shoe: consult the tableau with the
player's third card value (none if the player stood), draw at most one
card for the banker, then decide the outcome. -/
def bankerPhase (pc bc : List Nat) (ptv : Option Nat) (s : Shoe) (g : RNG) :
    Except Err (DealResult × Shoe × RNG) :=
  if banker_draw_rule bc ptv then
    match s.draw_random g with
    | .error e => .error e
    | .ok (b3, s1, g1) => dealOutcome pc (bc ++ [b3]) s1 g1
  else dealOutcome pc bc s g

/-- deal_hand_from_shoe: two cards each, natural check, player third
card rule, banker tableau, outcome determination. -/
def deal_hand_from_shoe (s0 : Shoe) (g0 : RNG) :
    Except Err (DealResult × Shoe × RNG) :=
  match s0.draw_random g0 with
  | .error e => .error e
  | .ok (p1, s1, g1) =>
  match s1.draw_random g1 with
  | .error e => .error e
  | .ok (p2, s2, g2) =>
  match s2.draw_random g2 with
  | .error e => .error e
  | .ok (b1, s3, g3) =>
  match s3.draw_random g3 with
  | .error e => .error e
  | .ok (b2, s4, g4) =>
  let pc := [p1, p2]
  let bc := [b1, b2]
  let pt := hand_total pc
  let bt := hand_total bc
  if pt = 8 ∨ pt = 9 ∨ bt = 8 ∨ bt = 9 then
    if pt > bt then .ok (("Player", pc, bc), s4, g4)
    else if bt > pt then .ok (("Banker", pc, bc), s4, g4)
    else .ok (("Tie", pc, bc), s4, g4)
  else if pt ≤ 5 then
    match s4.draw_random g4 with
    | .error e => .error e
    | .ok (p3, s5, g5) =>
        bankerPhase (pc ++ [p3]) bc (some (cardValue p3)) s5 g5
  else
    bankerPhase pc bc none s4 g4

/-- Tally of outcomes across completed trials, models win_counts. -/
structure WinCounts where
  player : Nat
  banker : Nat
  tie : Nat
deriving Repr, DecidableEq

/-- Models win_counts[result] += 1 for a result key. -/
def WinCounts.bump (w : WinCounts) (k : String) : WinCounts :=
  if k = "Player" then { w with player := w.player + 1 }
  else if k = "Banker" then { w with banker := w.banker + 1 }
  else if k = "Tie" then { w with tie := w.tie + 1 }
  else w

/-- A probability distribution over the three outcomes. -/
structure Prob where
  player : ℚ
  banker : ℚ
  tie : ℚ
deriving Repr, DecidableEq

/-- Trial loop of the estimator: each trial deals against a fresh shoe
built from the copied base counts; a ValueError stops the loop keeping
the tally so far; any other error propagates. -/
def simLoop (decks : Nat) (base : List (Nat × Nat)) :
    Nat → RNG → WinCounts → Except Err WinCounts
  | 0, _, w => .ok w
  | n + 1, g, w =>
    match deal_hand_from_shoe ⟨decks, base⟩ g with
    | .ok ((res, _, _), _, g1) => simLoop decks base n g1 (w.bump res)
    | .error (.valueError _) => .ok w
    | .error (.runtimeError m) => .error (.runtimeError m)

/-- simulate_next_hand_probabilities: reseed the global stream from the
seed (discarding its prior state g0), run up to n_sims trials against
fresh copies of the shoe counts, and normalise the tally, returning the
all-zero distribution when no trial completed. -/
def simulate_next_hand_probabilities (g0 : RNG) (shoe : Shoe)
    (n_sims : Nat) (seed : Nat) : Except Err Prob :=
  let _unusedPriorStream := g0
  let g := seedRNG seed
  let base := shoe.counts
  match simLoop shoe.decks base n_sims g ⟨0, 0, 0⟩ with
  | .error e => .error e
  | .ok w =>
    let total := w.player + w.banker + w.tie
    if total = 0 then .ok ⟨0, 0, 0⟩
    else .ok ⟨(w.player : ℚ) / (total : ℚ), (w.banker : ℚ) / (total : ℚ),
              (w.tie : ℚ) / (total : ℚ)⟩

/-- Expected values per unit staked for the three bet types. -/
structure EVResult where
  player : ℚ
  banker : ℚ
  tie : ℚ
deriving Repr, DecidableEq

/-- expected_value: per-unit EV of each bet given the outcome
distribution and net payouts; ties push on Player/Banker bets. -/
def expected_value (prob : Prob) (payout_player payout_banker payout_tie : ℚ) :
    EVResult :=
  let pP := prob.player
  let pB := prob.banker
  let pT := prob.tie
  { player := pP * payout_player - pB * 1
    banker := pB * payout_banker - pP * 1
    tie := pT * payout_tie - (1 - pT) * 1 }

/-- kelly_fraction: 0 for non-positive payout, else edge over payout
clamped below at 0. -/
def kelly_fraction (edge payout : ℚ) : ℚ :=
  if payout ≤ 0 then 0 else max 0 (edge / payout)

/-- Point value as the spec words it: ranks 1..9 map to their face
value, ranks 10..13 map to 0 (for comparison with cardValue). -/
def specPointValue (r : Nat) : Nat := if r ≤ 9 then r else 0

theorem lookupCount_decCount_self (l : List (Nat × Nat)) (rank : Nat) :
    lookupCount (decCount l rank) rank = lookupCount l rank - 1 := by
  induction l with
  | nil => rfl
  | cons kc rest ih =>
    obtain ⟨k, c⟩ := kc
    by_cases hk : k = rank
    · simp [decCount, lookupCount, hk]
    · simp [decCount, lookupCount, hk, ih]

theorem lookupCount_decCount_ne (l : List (Nat × Nat)) (rank k : Nat)
    (hne : k ≠ rank) : lookupCount (decCount l rank) k = lookupCount l k := by
  induction l with
  | nil => rfl
  | cons kc rest ih =>
    obtain ⟨k0, c0⟩ := kc
    by_cases hk : k0 = rank
    · subst hk
      have hk0 : ¬(k0 = k) := fun hcontra => hne hcontra.symm
      simp [decCount, lookupCount, hk0]
    · by_cases hk0 : k0 = k
      · subst hk0
        simp [decCount, lookupCount, hk]
      · simp [decCount, lookupCount, hk, hk0, ih]

theorem decCount_keys (l : List (Nat × Nat)) (rank : Nat) :
    (decCount l rank).map Prod.fst = l.map Prod.fst := by
  induction l with
  | nil => rfl
  | cons kc rest ih =>
    obtain ⟨k0, c0⟩ := kc
    by_cases hk : k0 = rank <;> simp [decCount, hk, ih]

theorem sumCounts_decCount (l : List (Nat × Nat)) (rank : Nat)
    (h : 0 < lookupCount l rank) :
    sumCounts (decCount l rank) + 1 = sumCounts l := by
  induction l with
  | nil => simp [lookupCount] at h
  | cons kc rest ih =>
    obtain ⟨k0, c0⟩ := kc
    by_cases hk : k0 = rank
    · simp only [lookupCount, if_pos hk] at h
      simp only [decCount, if_pos hk, sumCounts]
      omega
    · simp only [lookupCount, if_neg hk] at h
      simp only [decCount, if_neg hk, sumCounts]
      have := ih h
      omega

theorem lookupCount_of_mem_nodup (l : List (Nat × Nat)) (k c : Nat)
    (hnd : (l.map Prod.fst).Nodup) (hm : (k, c) ∈ l) :
    lookupCount l k = c := by
  induction l with
  | nil => simp at hm
  | cons kc rest ih =>
    obtain ⟨k0, c0⟩ := kc
    simp only [List.map_cons, List.nodup_cons] at hnd
    rcases List.mem_cons.mp hm with heq | hmem
    · injection heq with hk hc
      subst hk
      subst hc
      simp [lookupCount]
    · by_cases hk : k0 = k
      · exfalso
        apply hnd.1
        rw [hk]
        exact List.mem_map_of_mem Prod.fst hmem
      · simp only [lookupCount, if_neg hk]
        exact ih hnd.2 hmem

theorem drawWalk_mem (l : List (Nat × Nat)) (r cum rank : Nat)
    (h : drawWalk l r cum = some rank) : ∃ c, (rank, c) ∈ l ∧ 0 < c := by
  induction l generalizing cum with
  | nil => simp [drawWalk] at h
  | cons kc rest ih =>
    obtain ⟨k0, c0⟩ := kc
    simp only [drawWalk] at h
    by_cases h0 : c0 = 0
    · rw [if_pos h0] at h
      obtain ⟨c, hc, hcp⟩ := ih _ h
      exact ⟨c, List.mem_cons_of_mem _ hc, hcp⟩
    · rw [if_neg h0] at h
      by_cases hr : r ≤ cum + c0
      · rw [if_pos hr] at h
        injection h with h
        subst h
        exact ⟨c0, List.mem_cons_self _ _, Nat.pos_of_ne_zero h0⟩
      · rw [if_neg hr] at h
        obtain ⟨c, hc, hcp⟩ := ih _ h
        exact ⟨c, List.mem_cons_of_mem _ hc, hcp⟩

theorem fallbackPick_mem (l : List (Nat × Nat)) (rank : Nat)
    (h : fallbackPick l = some rank) : ∃ c, (rank, c) ∈ l ∧ 0 < c := by
  induction l with
  | nil => simp [fallbackPick] at h
  | cons kc rest ih =>
    obtain ⟨k0, c0⟩ := kc
    simp only [fallbackPick] at h
    by_cases h0 : c0 > 0
    · rw [if_pos h0] at h
      injection h with h
      subst h
      exact ⟨c0, List.mem_cons_self _ _, h0⟩
    · rw [if_neg h0] at h
      obtain ⟨c, hc, hcp⟩ := ih h
      exact ⟨c, List.mem_cons_of_mem _ hc, hcp⟩

theorem drawWalk_total (l : List (Nat × Nat)) (r cum : Nat)
    (h1 : cum < r) (h2 : r ≤ cum + sumCounts l) :
    ∃ rank, drawWalk l r cum = some rank := by
  induction l generalizing cum with
  | nil =>
    simp only [sumCounts] at h2
    omega
  | cons kc rest ih =>
    obtain ⟨k0, c0⟩ := kc
    simp only [sumCounts] at h2
    simp only [drawWalk]
    by_cases h0 : c0 = 0
    · rw [if_pos h0]
      exact ih cum h1 (by omega)
    · rw [if_neg h0]
      by_cases hr : r ≤ cum + c0
      · rw [if_pos hr]
        exact ⟨k0, rfl⟩
      · rw [if_neg hr]
        exact ih (cum + c0) (by omega) (by omega)

theorem drawWalk_eq_specSelect (l : List (Nat × Nat)) (r cum : Nat)
    (h : cum < r) : drawWalk l r cum = specSelect l r cum := by
  induction l generalizing cum with
  | nil => rfl
  | cons kc rest ih =>
    obtain ⟨k0, c0⟩ := kc
    simp only [drawWalk, specSelect]
    by_cases h0 : c0 = 0
    · rw [if_pos h0, if_neg (by omega)]
      subst h0
      rw [Nat.add_zero]
      exact ih cum h
    · rw [if_neg h0]
      by_cases hr : r ≤ cum + c0
      · rw [if_pos hr, if_pos hr]
      · rw [if_neg hr, if_neg hr]
        exact ih (cum + c0) (by omega)

theorem randint_bounds (g : RNG) (total : Nat) (h : 0 < total) :
    1 ≤ (randint g 1 total).1 ∧ (randint g 1 total).1 ≤ total := by
  have hx : (randint g 1 total).1 = 1 + g.next.1 % (total + 1 - 1) := rfl
  have hm : g.next.1 % total < total := Nat.mod_lt _ h
  rw [hx, Nat.add_sub_cancel]
  omega

theorem draw_random_unfold (s : Shoe) (g : RNG) :
    s.draw_random g =
      (if s.remaining = 0 then .error (.valueError ("Shoe is empty."))
       else
         match drawWith s (randint g 1 s.remaining).1 with
         | .ok (rank, s1) => .ok (rank, s1, (randint g 1 s.remaining).2)
         | .error e => .error e) := rfl

theorem draw_random_ok_spec (s : Shoe) (g : RNG) (h : 0 < s.remaining) :
    ∃ rank, drawWalk s.counts (randint g 1 s.remaining).1 0 = some rank ∧
      s.draw_random g = .ok (rank, ⟨s.decks, decCount s.counts rank⟩,
        (randint g 1 s.remaining).2) := by
  obtain ⟨h1, h2⟩ := randint_bounds g s.remaining h
  obtain ⟨rank, hw⟩ := drawWalk_total s.counts (randint g 1 s.remaining).1 0
    h1 (by simpa using h2)
  refine ⟨rank, hw, ?_⟩
  rw [draw_random_unfold, if_neg (by omega)]
  have hdw : drawWith s (randint g 1 s.remaining).1 =
      .ok (rank, ⟨s.decks, decCount s.counts rank⟩) := by
    unfold drawWith
    rw [hw]
  rw [hdw]

theorem draw_random_error_spec (s : Shoe) (g : RNG) (e : Err)
    (h : s.draw_random g = .error e) :
    s.remaining = 0 ∧ e = .valueError ("Shoe is empty.") := by
  by_cases h0 : s.remaining = 0
  · rw [draw_random_unfold, if_pos h0] at h
    injection h with h
    exact ⟨h0, h.symm⟩
  · obtain ⟨rank, -, hok⟩ := draw_random_ok_spec s g (Nat.pos_of_ne_zero h0)
    rw [hok] at h
    exact Except.noConfusion h

theorem draw_random_ok_inv (s s1 : Shoe) (g g1 : RNG) (rank : Nat)
    (h : s.draw_random g = .ok (rank, s1, g1)) :
    0 < s.remaining ∧
    drawWalk s.counts (randint g 1 s.remaining).1 0 = some rank ∧
    s1 = ⟨s.decks, decCount s.counts rank⟩ ∧
    g1 = (randint g 1 s.remaining).2 := by
  by_cases h0 : s.remaining = 0
  · rw [draw_random_unfold, if_pos h0] at h
    exact Except.noConfusion h
  · obtain ⟨rank2, hw, hok⟩ := draw_random_ok_spec s g (Nat.pos_of_ne_zero h0)
    rw [hok] at h
    simp only [Except.ok.injEq, Prod.mk.injEq] at h
    obtain ⟨he1, he2, he3⟩ := h
    subst he1
    exact ⟨Nat.pos_of_ne_zero h0, hw, he2.symm, he3.symm⟩

theorem draw_random_remaining (s s1 : Shoe) (g g1 : RNG) (rank : Nat)
    (hwf : s.WF) (h : s.draw_random g = .ok (rank, s1, g1)) :
    s1.remaining + 1 = s.remaining ∧ s1.WF ∧ s1.decks = s.decks ∧
    0 < lookupCount s.counts rank := by
  obtain ⟨hpos, hw, hs1, hg1⟩ := draw_random_ok_inv s s1 g g1 rank h
  obtain ⟨c, hmem, hcpos⟩ := drawWalk_mem _ _ _ _ hw
  have hlk : lookupCount s.counts rank = c :=
    lookupCount_of_mem_nodup _ _ _ hwf hmem
  subst hs1
  refine ⟨?_, ?_, rfl, by omega⟩
  · show sumCounts (decCount s.counts rank) + 1 = sumCounts s.counts
    exact sumCounts_decCount _ _ (by omega)
  · show (List.map Prod.fst (decCount s.counts rank)).Nodup
    rw [decCount_keys]
    exact hwf

theorem hand_total_lt (cards : List Nat) : hand_total cards < 10 := by
  unfold hand_total
  exact Nat.mod_lt _ (by omega)

/-- Claim C2: for any banker hand and any player third-card value v in
0..9 (or none when the player stood), banker_draw_rule matches the spec
tableau: total at most 2 draws; 3 draws unless v = 8; 4 draws iff v in
2..7; 5 draws iff v in 4..7; 6 draws iff v in 6..7; 7 or more stands;
with no player third card, draw iff total at most 5. -/
theorem banker_draw_rule_correct (cards : List Nat) (v : Nat) (hv : v ≤ 9) :
    (banker_draw_rule cards (some v) = true ↔
      (hand_total cards ≤ 2 ∨
       (hand_total cards = 3 ∧ v ≠ 8) ∨
       (hand_total cards = 4 ∧ v ∈ ([2, 3, 4, 5, 6, 7] : List Nat)) ∨
       (hand_total cards = 5 ∧ v ∈ ([4, 5, 6, 7] : List Nat)) ∨
       (hand_total cards = 6 ∧ v ∈ ([6, 7] : List Nat)))) ∧
    (7 ≤ hand_total cards → banker_draw_rule cards (some v) = false) ∧
    (banker_draw_rule cards none = true ↔ hand_total cards ≤ 5) := by
  have hb := hand_total_lt cards
  revert hb
  unfold banker_draw_rule
  generalize hand_total cards = b
  intro hb
  interval_cases b <;> interval_cases v <;> decide

/-- Witness for C2 at banker total 7 and player third card value 9:
the banker stands. -/
theorem banker_draw_rule_correct_witness :
    banker_draw_rule [3, 4] (some 9) = false :=
  (banker_draw_rule_correct [3, 4] 9 (by decide)).2.1 (by decide)

/-- Claim C6: expected_value returns exactly the push-inclusive EV
formulas, and on the degenerate distribution all on Player with payouts
(1, 0.95, 8) returns (1, -1, -1). -/
theorem expected_value_correct (prob : Prob) (pp pb pt : ℚ) :
    expected_value prob pp pb pt =
      ⟨prob.player * pp - prob.banker, prob.banker * pb - prob.player,
       prob.tie * pt - (1 - prob.tie)⟩ ∧
    expected_value ⟨1, 0, 0⟩ 1 (95 / 100) 8 = ⟨1, -1, -1⟩ := by
  constructor
  · simp only [expected_value, EVResult.mk.injEq]
    refine ⟨by ring, by ring, by ring⟩
  · simp only [expected_value, EVResult.mk.injEq]
    norm_num

/-- Claim C7: kelly_fraction returns 0 for non-positive payout,
otherwise max(0, edge / payout); it is never negative, clamps negative
edges to 0, and kelly_fraction(0.05, 0.95) = 0.05 / 0.95. -/
theorem kelly_fraction_correct (edge payout : ℚ) :
    (payout ≤ 0 → kelly_fraction edge payout = 0) ∧
    (0 < payout → kelly_fraction edge payout = max 0 (edge / payout)) ∧
    0 ≤ kelly_fraction edge payout ∧
    (edge < 0 → kelly_fraction edge payout = 0) ∧
    kelly_fraction (5 / 100) (95 / 100) = (5 / 100) / (95 / 100) := by
  refine ⟨?_, ?_, ?_, ?_, ?_⟩
  · intro h
    simp [kelly_fraction, h]
  · intro h
    simp [kelly_fraction, not_le.mpr h]
  · unfold kelly_fraction
    split
    · exact le_refl 0
    · exact le_max_left 0 _
  · intro h
    unfold kelly_fraction
    split
    · rfl
    · rename_i hp
      have hp2 : (0 : ℚ) < payout := lt_of_not_le hp
      have hdiv : edge / payout ≤ 0 :=
        div_nonpos_of_nonpos_of_nonneg h.le hp2.le
      exact max_eq_left hdiv
  · unfold kelly_fraction
    rw [if_neg (by norm_num)]
    rw [max_eq_right (by positivity)]

/-- Witness for C7: a negative edge is clamped to 0, and a non-positive
payout yields 0. -/
theorem kelly_fraction_correct_witness :
    kelly_fraction (-1 / 100) 1 = 0 ∧ kelly_fraction 2 (-1) = 0 :=
  ⟨(kelly_fraction_correct (-1 / 100) 1).2.2.2.1 (by norm_num),
   (kelly_fraction_correct 2 (-1)).1 (by norm_num)⟩

/-- Claim C8: hand_total is the mod-10 sum of spec point values (face
value for 1..9, zero for 10..13), lies in [0, 9], and is invariant
under permutation of the cards. -/
theorem hand_total_correct (cards : List Nat)
    (hc : ∀ c ∈ cards, 1 ≤ c ∧ c ≤ 13) :
    hand_total cards = (cards.map specPointValue).sum % 10 ∧
    hand_total cards ≤ 9 ∧
    ∀ cards2, cards.Perm cards2 → hand_total cards = hand_total cards2 := by
  refine ⟨?_, ?_, ?_⟩
  · unfold hand_total
    have hmap : cards.map cardValue = cards.map specPointValue := by
      apply List.map_congr_left
      intro c hcm
      obtain ⟨hc1, hc2⟩ := hc c hcm
      interval_cases c <;> rfl
    rw [hmap]
  · have := hand_total_lt cards
    omega
  · intro cards2 hp
    unfold hand_total
    rw [List.Perm.sum_eq (hp.map cardValue)]

/-- Witness for C8 at the hand [A, K]: total 1, permutation invariant. -/
theorem hand_total_correct_witness :
    hand_total [1, 13] = ([1, 13].map specPointValue).sum % 10 ∧
    hand_total [1, 13] = hand_total [13, 1] :=
  ⟨(hand_total_correct [1, 13] (by decide)).1,
   (hand_total_correct [1, 13] (by decide)).2.2 [13, 1] (by decide)⟩

/-- Claim C9: remove(rank) decrements counts[rank] by exactly 1 when it
is positive, leaves every other rank unchanged, and fails with the
exhausted-rank ValueError when counts[rank] is already 0 (the rejected
operation changes nothing). -/
theorem shoe_remove_correct (s : Shoe) (rank : Nat)
    (h1 : 1 ≤ rank) (h2 : rank ≤ 13) :
    (0 < lookupCount s.counts rank →
      s.remove rank = .ok ⟨s.decks, decCount s.counts rank⟩ ∧
      lookupCount (decCount s.counts rank) rank + 1 =
        lookupCount s.counts rank ∧
      ∀ k, k ≠ rank →
        lookupCount (decCount s.counts rank) k = lookupCount s.counts k) ∧
    (lookupCount s.counts rank = 0 →
      ∃ msg, s.remove rank = .error (.valueError msg)) := by
  constructor
  · intro hpos
    refine ⟨?_, ?_, fun k hk => lookupCount_decCount_ne s.counts rank k hk⟩
    · unfold Shoe.remove
      rw [if_neg (by omega)]
    · have := lookupCount_decCount_self s.counts rank
      omega
  · intro h0
    refine ⟨String.append (String.append ("No ") (rankLabel rank))
      (" left to draw."), ?_⟩
    unfold Shoe.remove
    rw [if_pos h0]

/-- Witness for C9: removing an ace present once succeeds and empties
it; removing a rank with zero count is rejected. -/
theorem shoe_remove_correct_witness :
    Shoe.remove ⟨1, [(1, 1), (2, 0)]⟩ 1 = .ok ⟨1, [(1, 0), (2, 0)]⟩ ∧
    ∃ msg, Shoe.remove ⟨1, [(1, 1), (2, 0)]⟩ 2 = .error (.valueError msg) :=
  ⟨((shoe_remove_correct ⟨1, [(1, 1), (2, 0)]⟩ 1 (by decide) (by decide)).1
      (by decide)).1,
   (shoe_remove_correct ⟨1, [(1, 1), (2, 0)]⟩ 2 (by decide) (by decide)).2
      (by decide)⟩

/-- Claim C10: the post-loop fallback of draw_random is unreachable:
for every drawn integer r in [1, remaining()], the cumulative walk
itself selects a rank and returns inside the first loop. -/
theorem drawWith_fallback_unreachable (s : Shoe) (r : Nat)
    (h1 : 1 ≤ r) (h2 : r ≤ s.remaining) :
    ∃ rank, drawWalk s.counts r 0 = some rank ∧
      drawWith s r = .ok (rank, ⟨s.decks, decCount s.counts rank⟩) := by
  obtain ⟨rank, hw⟩ := drawWalk_total s.counts r 0 h1 (by
    have hr : sumCounts s.counts = s.remaining := rfl
    omega)
  refine ⟨rank, hw, ?_⟩
  unfold drawWith
  rw [hw]

/-- Witness for C10 on a shoe whose first rank is exhausted: the walk
still returns from the first loop. -/
theorem drawWith_fallback_unreachable_witness :
    ∃ rank, drawWalk [(1, 0), (5, 2)] 1 0 = some rank ∧
      drawWith ⟨1, [(1, 0), (5, 2)]⟩ 1 =
        .ok (rank, ⟨1, decCount [(1, 0), (5, 2)] rank⟩) :=
  drawWith_fallback_unreachable ⟨1, [(1, 0), (5, 2)]⟩ 1 (by decide) (by decide)

/-- Claim C1: on a non-empty shoe draw_random draws a pseudo-random
integer r in [1, remaining()], walks the ranks in iteration order
accumulating counts, selects the first rank whose cumulative sum
reaches or exceeds r (never a rank with zero count), decrements that
rank by exactly 1 leaving all others unchanged, and returns it; on an
empty shoe it fails with the empty-shoe ValueError without touching
any count. -/
theorem draw_random_correct (s : Shoe) (g : RNG) (hwf : s.WF) :
    (s.remaining = 0 →
      s.draw_random g = .error (.valueError ("Shoe is empty."))) ∧
    (0 < s.remaining →
      1 ≤ (randint g 1 s.remaining).1 ∧
      (randint g 1 s.remaining).1 ≤ s.remaining ∧
      ∃ rank s1,
        s.draw_random g = .ok (rank, s1, (randint g 1 s.remaining).2) ∧
        specSelect s.counts (randint g 1 s.remaining).1 0 = some rank ∧
        0 < lookupCount s.counts rank ∧
        lookupCount s1.counts rank + 1 = lookupCount s.counts rank ∧
        (∀ k, k ≠ rank → lookupCount s1.counts k = lookupCount s.counts k) ∧
        s1.decks = s.decks) := by
  constructor
  · intro h0
    rw [draw_random_unfold, if_pos h0]
  · intro hpos
    obtain ⟨hr1, hr2⟩ := randint_bounds g s.remaining hpos
    obtain ⟨rank, hw, hok⟩ := draw_random_ok_spec s g hpos
    obtain ⟨c, hmem, hcpos⟩ := drawWalk_mem _ _ _ _ hw
    have hlk := lookupCount_of_mem_nodup _ _ _ hwf hmem
    refine ⟨hr1, hr2, rank, ⟨s.decks, decCount s.counts rank⟩, hok, ?_,
      by omega, ?_, ?_, rfl⟩
    · rw [← drawWalk_eq_specSelect _ _ _ (by omega)]
      exact hw
    · show lookupCount (decCount s.counts rank) rank + 1 =
        lookupCount s.counts rank
      have hself := lookupCount_decCount_self s.counts rank
      omega
    · intro k hk
      exact lookupCount_decCount_ne s.counts rank k hk

/-- Witness for C1 on a small non-empty shoe: the drawn integer is in
range and the selected rank obeys the cumulative-selection spec. -/
theorem draw_random_correct_witness :
    1 ≤ (randint ⟨0⟩ 1 3).1 ∧ (randint ⟨0⟩ 1 3).1 ≤ 3 ∧
    ∃ rank s1,
      Shoe.draw_random ⟨1, [(1, 2), (2, 1)]⟩ ⟨0⟩ =
        .ok (rank, s1, (randint ⟨0⟩ 1 3).2) ∧
      specSelect [(1, 2), (2, 1)] (randint ⟨0⟩ 1 3).1 0 = some rank ∧
      0 < lookupCount [(1, 2), (2, 1)] rank ∧
      lookupCount s1.counts rank + 1 = lookupCount [(1, 2), (2, 1)] rank ∧
      (∀ k, k ≠ rank →
        lookupCount s1.counts k = lookupCount [(1, 2), (2, 1)] k) ∧
      s1.decks = 1 :=
  (draw_random_correct ⟨1, [(1, 2), (2, 1)]⟩ ⟨0⟩
    (by unfold Shoe.WF; decide)).2 (by decide)

/-- Claim C5: simulate is fully determined by the seed and the shoe
composition: two runs with the same seed and the same counts (and deck
count) give identical distributions, whatever the prior state of the
global pseudo-random stream was. -/
theorem simulate_deterministic (g0 g1 : RNG) (s1 s2 : Shoe) (n seed : Nat)
    (hc : s1.counts = s2.counts) (hd : s1.decks = s2.decks) :
    simulate_next_hand_probabilities g0 s1 n seed =
      simulate_next_hand_probabilities g1 s2 n seed := by
  obtain ⟨d1, c1⟩ := s1
  obtain ⟨d2, c2⟩ := s2
  simp only at hc hd
  subst hc
  subst hd
  rfl

/-- Witness for C5: two runs over the same one-deck composition from
different prior stream states agree. -/
theorem simulate_deterministic_witness :
    simulate_next_hand_probabilities ⟨7⟩ ⟨1, [(1, 4)]⟩ 3 42 =
      simulate_next_hand_probabilities ⟨99⟩ ⟨1, [(1, 4)]⟩ 3 42 :=
  simulate_deterministic ⟨7⟩ ⟨99⟩ ⟨1, [(1, 4)]⟩ ⟨1, [(1, 4)]⟩ 3 42 rfl rfl

theorem dealOutcome_ok (pc bc : List Nat) (s : Shoe) (g : RNG) :
    ∃ res, dealOutcome pc bc s g = .ok ((res, pc, bc), s, g) := by
  unfold dealOutcome
  split
  · exact ⟨_, rfl⟩
  · split
    · exact ⟨_, rfl⟩
    · exact ⟨_, rfl⟩

theorem bankerPhase_error_is_valueError (pc bc : List Nat) (ptv : Option Nat)
    (s : Shoe) (g : RNG) (e : Err)
    (h : bankerPhase pc bc ptv s g = .error e) : ∃ m, e = .valueError m := by
  unfold bankerPhase at h
  split at h
  · cases hd : s.draw_random g with
    | error e2 =>
      simp only [hd] at h
      injection h with h
      subst h
      exact ⟨_, (draw_random_error_spec _ _ _ hd).2⟩
    | ok v =>
      obtain ⟨b3, s1, g1⟩ := v
      simp only [hd] at h
      obtain ⟨res, hres⟩ := dealOutcome_ok pc (bc ++ [b3]) s1 g1
      rw [hres] at h
      exact Except.noConfusion h
  · obtain ⟨res, hres⟩ := dealOutcome_ok pc bc s g
    rw [hres] at h
    exact Except.noConfusion h

theorem deal_error_is_valueError (s : Shoe) (g : RNG) (e : Err)
    (h : deal_hand_from_shoe s g = .error e) : ∃ m, e = .valueError m := by
  unfold deal_hand_from_shoe at h
  cases h1 : s.draw_random g with
  | error e1 =>
    simp only [h1] at h
    injection h with h
    subst h
    exact ⟨_, (draw_random_error_spec _ _ _ h1).2⟩
  | ok v1 =>
    obtain ⟨p1, s1, g1⟩ := v1
    simp only [h1] at h
    cases h2 : s1.draw_random g1 with
    | error e2 =>
      simp only [h2] at h
      injection h with h
      subst h
      exact ⟨_, (draw_random_error_spec _ _ _ h2).2⟩
    | ok v2 =>
      obtain ⟨p2, s2, g2⟩ := v2
      simp only [h2] at h
      cases h3 : s2.draw_random g2 with
      | error e3 =>
        simp only [h3] at h
        injection h with h
        subst h
        exact ⟨_, (draw_random_error_spec _ _ _ h3).2⟩
      | ok v3 =>
        obtain ⟨b1, s3, g3⟩ := v3
        simp only [h3] at h
        cases h4 : s3.draw_random g3 with
        | error e4 =>
          simp only [h4] at h
          injection h with h
          subst h
          exact ⟨_, (draw_random_error_spec _ _ _ h4).2⟩
        | ok v4 =>
          obtain ⟨b2, s4, g4⟩ := v4
          simp only [h4] at h
          split at h
          · split at h
            · exact Except.noConfusion h
            · split at h
              · exact Except.noConfusion h
              · exact Except.noConfusion h
          · split at h
            · cases h5 : s4.draw_random g4 with
              | error e5 =>
                simp only [h5] at h
                injection h with h
                subst h
                exact ⟨_, (draw_random_error_spec _ _ _ h5).2⟩
              | ok v5 =>
                obtain ⟨p3, s5, g5⟩ := v5
                simp only [h5] at h
                exact bankerPhase_error_is_valueError _ _ _ _ _ _ h
            · exact bankerPhase_error_is_valueError _ _ _ _ _ _ h

theorem simLoop_ok (decks : Nat) (base : List (Nat × Nat)) (n : Nat)
    (g : RNG) (w : WinCounts) : ∃ w1, simLoop decks base n g w = .ok w1 := by
  induction n generalizing g w with
  | zero => exact ⟨w, rfl⟩
  | succ n ih =>
    unfold simLoop
    cases hd : deal_hand_from_shoe ⟨decks, base⟩ g with
    | ok v =>
      obtain ⟨⟨res, pc, bc⟩, sv, gv⟩ := v
      simp only [hd]
      exact ih gv (w.bump res)
    | error e =>
      obtain ⟨m, hm⟩ := deal_error_is_valueError _ _ _ hd
      subst hm
      simp only [hd]
      exact ⟨w, rfl⟩

theorem simulate_unfold (g0 : RNG) (s : Shoe) (n seed : Nat) :
    simulate_next_hand_probabilities g0 s n seed =
      (match simLoop s.decks s.counts n (seedRNG seed) ⟨0, 0, 0⟩ with
       | .error e => .error e
       | .ok w =>
         if w.player + w.banker + w.tie = 0 then .ok ⟨0, 0, 0⟩
         else .ok ⟨(w.player : ℚ) / ((w.player + w.banker + w.tie : Nat) : ℚ),
                   (w.banker : ℚ) / ((w.player + w.banker + w.tie : Nat) : ℚ),
                   (w.tie : ℚ) / ((w.player + w.banker + w.tie : Nat) : ℚ)⟩) :=
  rfl

/-- Claim C4: simulate never raises (every run returns a distribution),
returns the all-zero distribution for zero trials or when the first
trial fails by exhaustion, and any ValueError mid-run stops the loop
keeping the tally of the trials already completed. -/
theorem simulate_error_handling (g0 : RNG) (s : Shoe) (n seed : Nat) :
    (∃ p, simulate_next_hand_probabilities g0 s n seed = .ok p) ∧
    simulate_next_hand_probabilities g0 s 0 seed = .ok ⟨0, 0, 0⟩ ∧
    ((∃ m, deal_hand_from_shoe ⟨s.decks, s.counts⟩ (seedRNG seed) =
        .error (.valueError m)) →
      simulate_next_hand_probabilities g0 s n seed = .ok ⟨0, 0, 0⟩) ∧
    (∀ k gk w m, deal_hand_from_shoe ⟨s.decks, s.counts⟩ gk =
        .error (.valueError m) →
      simLoop s.decks s.counts (k + 1) gk w = .ok w) := by
  have hzero : simulate_next_hand_probabilities g0 s 0 seed =
      .ok ⟨0, 0, 0⟩ := rfl
  have hstop : ∀ k gk w m, deal_hand_from_shoe ⟨s.decks, s.counts⟩ gk =
      .error (.valueError m) →
      simLoop s.decks s.counts (k + 1) gk w = .ok w := by
    intro k gk w m hm
    unfold simLoop
    simp only [hm]
  refine ⟨?_, hzero, ?_, hstop⟩
  · obtain ⟨w1, hw1⟩ := simLoop_ok s.decks s.counts n (seedRNG seed) ⟨0, 0, 0⟩
    rw [simulate_unfold]
    by_cases ht : w1.player + w1.banker + w1.tie = 0
    · refine ⟨⟨0, 0, 0⟩, ?_⟩
      simp only [hw1, if_pos ht]
    · refine ⟨⟨(w1.player : ℚ) / ((w1.player + w1.banker + w1.tie : Nat) : ℚ),
        (w1.banker : ℚ) / ((w1.player + w1.banker + w1.tie : Nat) : ℚ),
        (w1.tie : ℚ) / ((w1.player + w1.banker + w1.tie : Nat) : ℚ)⟩, ?_⟩
      simp only [hw1, if_neg ht]
  · rintro ⟨m, hm⟩
    cases n with
    | zero => exact hzero
    | succ k =>
      rw [simulate_unfold, hstop k (seedRNG seed) ⟨0, 0, 0⟩ m hm]
      rfl

/-- Witness for C4: on a shoe with no cards at all the first trial
fails by exhaustion and simulate returns the all-zero distribution. -/
theorem simulate_error_handling_witness :
    simulate_next_hand_probabilities ⟨123⟩ ⟨0, []⟩ 5 42 = .ok ⟨0, 0, 0⟩ :=
  (simulate_error_handling ⟨123⟩ ⟨0, []⟩ 5 42).2.2.1
    ⟨("Shoe is empty."), rfl⟩

theorem dealOutcome_inv (pc0 bc0 : List Nat) (s : Shoe) (g : RNG)
    (res : String) (pc bc : List Nat) (sf : Shoe) (gf : RNG)
    (h : dealOutcome pc0 bc0 s g = .ok ((res, pc, bc), sf, gf)) :
    pc = pc0 ∧ bc = bc0 ∧ sf = s ∧ gf = g := by
  unfold dealOutcome at h
  split at h
  · simp only [Except.ok.injEq, Prod.mk.injEq] at h
    exact ⟨h.1.2.1.symm, h.1.2.2.symm, h.2.1.symm, h.2.2.symm⟩
  · split at h
    · simp only [Except.ok.injEq, Prod.mk.injEq] at h
      exact ⟨h.1.2.1.symm, h.1.2.2.symm, h.2.1.symm, h.2.2.symm⟩
    · simp only [Except.ok.injEq, Prod.mk.injEq] at h
      exact ⟨h.1.2.1.symm, h.1.2.2.symm, h.2.1.symm, h.2.2.symm⟩

theorem bankerPhase_ok_inv (pc0 bc0 : List Nat) (ptv : Option Nat) (s : Shoe)
    (g : RNG) (res : String) (pc bc : List Nat) (sf : Shoe) (gf : RNG)
    (h : bankerPhase pc0 bc0 ptv s g = .ok ((res, pc, bc), sf, gf)) :
    pc = pc0 ∧ (bc = bc0 ∨ ∃ b3, bc = bc0 ++ [b3]) := by
  unfold bankerPhase at h
  split at h
  · cases hd : s.draw_random g with
    | error e =>
      simp only [hd] at h
      exact Except.noConfusion h
    | ok v =>
      obtain ⟨b3, s1, g1⟩ := v
      simp only [hd] at h
      obtain ⟨hp, hb, -, -⟩ := dealOutcome_inv _ _ _ _ _ _ _ _ _ h
      exact ⟨hp, Or.inr ⟨b3, hb⟩⟩
  · obtain ⟨hp, hb, -, -⟩ := dealOutcome_inv _ _ _ _ _ _ _ _ _ h
    exact ⟨hp, Or.inl hb⟩

/-- Claim C3: on a successful deal, if either side's initial two-card
total is 8 or 9 the hand ends at once: both hands keep exactly 2 cards,
exactly 4 cards were consumed from the shoe, and the outcome compares
the two two-card totals; otherwise the player takes a third card iff
the player's two-card total is at most 5. -/
theorem deal_hand_natural_correct (s0 : Shoe) (g0 : RNG) (hwf : s0.WF)
    (res : String) (pc bc : List Nat) (sf : Shoe) (gf : RNG)
    (h : deal_hand_from_shoe s0 g0 = .ok ((res, pc, bc), sf, gf)) :
    ((hand_total (pc.take 2) = 8 ∨ hand_total (pc.take 2) = 9 ∨
      hand_total (bc.take 2) = 8 ∨ hand_total (bc.take 2) = 9) →
      pc.length = 2 ∧ bc.length = 2 ∧ sf.remaining + 4 = s0.remaining ∧
      res = (if hand_total pc > hand_total bc then "Player"
             else if hand_total bc > hand_total pc then "Banker"
             else "Tie")) ∧
    (¬(hand_total (pc.take 2) = 8 ∨ hand_total (pc.take 2) = 9 ∨
       hand_total (bc.take 2) = 8 ∨ hand_total (bc.take 2) = 9) →
      (pc.length = 3 ↔ hand_total (pc.take 2) ≤ 5)) := by
  unfold deal_hand_from_shoe at h
  cases h1 : s0.draw_random g0 with
  | error e1 =>
    simp only [h1] at h
    exact Except.noConfusion h
  | ok v1 =>
    obtain ⟨p1, s1, g1⟩ := v1
    simp only [h1] at h
    obtain ⟨hr1, hwf1, -, -⟩ := draw_random_remaining _ _ _ _ _ hwf h1
    cases h2 : s1.draw_random g1 with
    | error e2 =>
      simp only [h2] at h
      exact Except.noConfusion h
    | ok v2 =>
      obtain ⟨p2, s2, g2⟩ := v2
      simp only [h2] at h
      obtain ⟨hr2, hwf2, -, -⟩ := draw_random_remaining _ _ _ _ _ hwf1 h2
      cases h3 : s2.draw_random g2 with
      | error e3 =>
        simp only [h3] at h
        exact Except.noConfusion h
      | ok v3 =>
        obtain ⟨b1, s3, g3⟩ := v3
        simp only [h3] at h
        obtain ⟨hr3, hwf3, -, -⟩ := draw_random_remaining _ _ _ _ _ hwf2 h3
        cases h4 : s3.draw_random g3 with
        | error e4 =>
          simp only [h4] at h
          exact Except.noConfusion h
        | ok v4 =>
          obtain ⟨b2, s4, g4⟩ := v4
          simp only [h4] at h
          obtain ⟨hr4, hwf4, -, -⟩ := draw_random_remaining _ _ _ _ _ hwf3 h4
          split at h
          · rename_i hnat
            split at h
            · rename_i hgt
              simp only [Except.ok.injEq, Prod.mk.injEq] at h
              obtain ⟨⟨hres, hpc, hbc⟩, hsf, hgf⟩ := h
              subst hres
              subst hpc
              subst hbc
              subst hsf
              subst hgf
              constructor
              · intro hnatc
                refine ⟨rfl, rfl, by omega, ?_⟩
                rw [if_pos hgt]
              · intro hnot
                exfalso
                apply hnot
                have htp : (([p1, p2] : List Nat).take 2) = [p1, p2] := rfl
                have htb : (([b1, b2] : List Nat).take 2) = [b1, b2] := rfl
                rw [htp, htb]
                exact hnat
            · rename_i hngt
              split at h
              · rename_i hbt
                simp only [Except.ok.injEq, Prod.mk.injEq] at h
                obtain ⟨⟨hres, hpc, hbc⟩, hsf, hgf⟩ := h
                subst hres
                subst hpc
                subst hbc
                subst hsf
                subst hgf
                constructor
                · intro hnatc
                  refine ⟨rfl, rfl, by omega, ?_⟩
                  rw [if_neg hngt, if_pos hbt]
                · intro hnot
                  exfalso
                  apply hnot
                  have htp : (([p1, p2] : List Nat).take 2) = [p1, p2] := rfl
                  have htb : (([b1, b2] : List Nat).take 2) = [b1, b2] := rfl
                  rw [htp, htb]
                  exact hnat
              · rename_i hnbt
                simp only [Except.ok.injEq, Prod.mk.injEq] at h
                obtain ⟨⟨hres, hpc, hbc⟩, hsf, hgf⟩ := h
                subst hres
                subst hpc
                subst hbc
                subst hsf
                subst hgf
                constructor
                · intro hnatc
                  refine ⟨rfl, rfl, by omega, ?_⟩
                  rw [if_neg hngt, if_neg hnbt]
                · intro hnot
                  exfalso
                  apply hnot
                  have htp : (([p1, p2] : List Nat).take 2) = [p1, p2] := rfl
                  have htb : (([b1, b2] : List Nat).take 2) = [b1, b2] := rfl
                  rw [htp, htb]
                  exact hnat
          · rename_i hnat
            split at h
            · rename_i hpt
              cases h5 : s4.draw_random g4 with
              | error e5 =>
                simp only [h5] at h
                exact Except.noConfusion h
              | ok v5 =>
                obtain ⟨p3, s5, g5⟩ := v5
                simp only [h5] at h
                obtain ⟨hpc, hbc⟩ := bankerPhase_ok_inv _ _ _ _ _ _ _ _ _ _ h
                constructor
                · intro hnatc
                  exfalso
                  apply hnat
                  rw [hpc] at hnatc
                  have htp : (([p1, p2] ++ [p3]).take 2) = [p1, p2] := rfl
                  rw [htp] at hnatc
                  rcases hbc with hbc | ⟨b3, hbc⟩
                  · rw [hbc] at hnatc
                    have htb : (([b1, b2] : List Nat).take 2) = [b1, b2] := rfl
                    rw [htb] at hnatc
                    exact hnatc
                  · rw [hbc] at hnatc
                    have htb : (([b1, b2] ++ [b3]).take 2) = [b1, b2] := rfl
                    rw [htb] at hnatc
                    exact hnatc
                · intro hnot
                  rw [hpc]
                  have htp : (([p1, p2] ++ [p3]).take 2) = [p1, p2] := rfl
                  have hlen : ([p1, p2] ++ [p3]).length = 3 := rfl
                  rw [htp, hlen]
                  exact iff_of_true rfl hpt
            · rename_i hpt
              obtain ⟨hpc, hbc⟩ := bankerPhase_ok_inv _ _ _ _ _ _ _ _ _ _ h
              constructor
              · intro hnatc
                exfalso
                apply hnat
                rw [hpc] at hnatc
                have htp : (([p1, p2] : List Nat).take 2) = [p1, p2] := rfl
                rw [htp] at hnatc
                rcases hbc with hbc | ⟨b3, hbc⟩
                · rw [hbc] at hnatc
                  have htb : (([b1, b2] : List Nat).take 2) = [b1, b2] := rfl
                  rw [htb] at hnatc
                  exact hnatc
                · rw [hbc] at hnatc
                  have htb : (([b1, b2] ++ [b3]).take 2) = [b1, b2] := rfl
                  rw [htb] at hnatc
                  exact hnatc
              · intro hnot
                rw [hpc]
                have htp : (([p1, p2] : List Nat).take 2) = [p1, p2] := rfl
                have hlen : ([p1, p2] : List Nat).length = 2 := rfl
                rw [htp, hlen]
                exact iff_of_false (by omega) hpt

/-- Witness for C3: the deal from a full one-deck shoe at stream state
0 gives player [6, J] (total 6, stands with 2 cards) and banker
[10, 5, 8]; the no-natural branch of the theorem applies. -/
theorem deal_hand_natural_correct_witness :
    ([6, 11] : List Nat).length = 3 ↔
      hand_total (([6, 11] : List Nat).take 2) ≤ 5 :=
  (deal_hand_natural_correct ⟨1, initCounts 1⟩ ⟨0⟩ (by unfold Shoe.WF; decide)
    ("Player") [6, 11] [10, 5, 8]
    ⟨1, [(1, 4), (2, 4), (3, 4), (4, 4), (5, 3), (6, 3), (7, 4), (8, 3),
         (9, 4), (10, 3), (11, 3), (12, 4), (13, 4)]⟩
    ⟨7076646890315895283⟩ rfl).2 (by decide)
